import Mathlib

/-!
Shallow embedding of plugins/sudoers/regress/fuzz/fuzz_policy.c.

The file embeds, from the C source: the growable string array
(struct dynamic_array with push, free_strvec, free_dynamic_array), the
line classifier of LLVMFuzzerTestOneInput, the two harness callbacks
(fuzz_conversation and fuzz_printf), and the plugin-lifecycle driver of
LLVMFuzzerTestOneInput as a trace of the plugin calls it makes.

Modelling conventions:
* A C string is the list of its characters up to the terminating NUL
  (strdup and strncmp never look past the NUL), type CStr below.
* A char-pointer cell is Option CStr, none being the NULL pointer.
* The entries buffer of a dynamic_array is Option (List Cell): none is
  the NULL pointer, some buf an allocated buffer whose cells are buf.
  Cells that C leaves uninitialized are modelled as none; the code never
  reads a cell it has not written.
* Heap allocation may fail.  An allocation oracle (Nat to Bool) says
  whether the n-th allocation of the iteration succeeds, and the running
  allocation counter is threaded through the functions that allocate.
* The input decoder (open_data, getdelim) is stream I/O; the harness is
  modelled on the decoded line sequence: the list of newline-stripped
  records, each cut at its first NUL byte.  Failure of open_data is an
  explicit boolean argument of the driver.
* The external plugin is not modelled: the trace of the driver records
  the calls made to it, and the value returned by its open entry point
  is an argument of the driver.
-/

/-- A C string: the characters before the terminating NUL. -/
abbrev CStr := List Char

/-- One char-pointer cell of an entries buffer; none models NULL. -/
abbrev Cell := Option CStr

/-- Allocation oracle: whether the n-th heap allocation succeeds. -/
abbrev Alloc := Nat → Bool

/-- Embedding of struct dynamic_array from fuzz_policy.c: entries buffer
(none when the pointer is NULL), number of live entries len, allocated
capacity size. -/
structure dynamic_array where
  entries : Option (List Cell)
  len : Nat
  size : Nat
deriving DecidableEq, Repr

/-- A zero-initialized dynamic_array, as declared in LLVMFuzzerTestOneInput
with an initializer that zeroes the record. -/
def dynamic_array.init : dynamic_array := ⟨none, 0, 0⟩

/-- Embedding of reallocarray(arr.entries, arr.size + 128, sizeof(char *)):
the old cells are preserved and 128 fresh (uninitialized, modelled none)
cells are appended; on a NULL pointer it behaves as malloc of size + 128
cells. -/
def reallocBuf (entries : Option (List Cell)) (size : Nat) : List Cell :=
  match entries with
  | some buf => buf ++ List.replicate 128 none
  | none => List.replicate (size + 128) none

/-- Final writes of push: entries[len++] = copy when copy is non-null,
then entries[len] = NULL.  Out-of-capacity writes cannot occur in states
reachable by the code; List.set ignores them. -/
def writeEntry (arr : dynamic_array) (copy : Option CStr) : dynamic_array :=
  match arr.entries with
  | none => arr
  | some buf =>
    match copy with
    | some s =>
      { arr with entries := some ((buf.set arr.len (some s)).set (arr.len + 1) none),
                 len := arr.len + 1 }
    | none => { arr with entries := some (buf.set arr.len none) }

/-- Second half of push, after strdup: grow when len + (entry != NULL)
would reach size, then append and re-terminate.  entryNonNull mirrors
the C expression (entry != NULL); on reallocarray failure the duplicated
copy is freed and false returned, the array untouched. -/
def pushAfterDup (alloc : Alloc) (cnt : Nat) (arr : dynamic_array)
    (copy : Option CStr) (entryNonNull : Bool) : Bool × dynamic_array × Nat :=
  if arr.len + (if entryNonNull then 1 else 0) ≥ arr.size then
    if alloc cnt then
      (true,
       writeEntry { arr with entries := some (reallocBuf arr.entries arr.size),
                             size := arr.size + 128 } copy,
       cnt + 1)
    else (false, arr, cnt + 1)
  else (true, writeEntry arr copy, cnt)

/-- Embedding of push from fuzz_policy.c.  Returns (ok, new array, next
allocation counter): strdup the entry when non-null (may fail), ensure
capacity for one more live slot plus the terminator (growth may fail),
append, always re-terminate. -/
def push (alloc : Alloc) (cnt : Nat) (arr : dynamic_array) (entry : Option CStr) :
    Bool × dynamic_array × Nat :=
  match entry with
  | some s =>
    if alloc cnt then pushAfterDup alloc (cnt + 1) arr (some s) true
    else (false, arr, cnt + 1)
  | none => pushAfterDup alloc cnt arr none false

/-- Embedding of free_strvec: frees vec[i] for i = 0, 1, ... until the
first NULL cell; the result is the list of freed strings.  Reachable
vectors are always NULL-terminated, so the empty-buffer case cannot
arise in the code. -/
def free_strvec : List Cell → List CStr
  | [] => []
  | none :: _ => []
  | some s :: rest => s :: free_strvec rest

/-- Embedding of free_dynamic_array: when the entries pointer is non-NULL,
free every owned string and the backing buffer; then memset the record to
zero.  The result records the reset record, the strings freed, and
whether the backing buffer itself was freed. -/
def free_dynamic_array (arr : dynamic_array) : dynamic_array × List CStr × Bool :=
  match arr.entries with
  | some buf => (⟨none, 0, 0⟩, free_strvec buf, true)
  | none => (⟨none, 0, 0⟩, [], false)

/-- The array arr is well formed and its live slots hold exactly the
strings of live: the buffer is the cells of live, then the NULL
terminator one past the last element, then the unused tail of the
capacity. -/
def Models (arr : dynamic_array) (live : List CStr) : Prop :=
  ∃ rest : List Cell,
    arr.entries = some (live.map some ++ none :: rest) ∧
    arr.size = live.length + 1 + rest.length ∧
    arr.len = live.length

/-- Pushing a list of entries in order, as the classification loop does;
per-push success flags are ignored exactly as the C caller ignores them. -/
def pushMany (alloc : Alloc) (cnt : Nat) (arr : dynamic_array) :
    List (Option CStr) → dynamic_array × Nat
  | [] => (arr, cnt)
  | e :: es =>
    let r := push alloc cnt arr e
    pushMany alloc r.2.2 r.2.1 es

theorem set_append_len (l1 l2 : List Cell) (n : Nat) (v : Cell) :
    (l1 ++ l2).set (l1.length + n) v = l1 ++ l2.set n v := by
  induction l1 with
  | nil => simp
  | cons a t ih =>
    have h : (a :: t).length + n = (t.length + n) + 1 := by
      simp [Nat.add_right_comm]
    rw [h]
    simp [List.set, ih]

theorem set_at_live_length (live : List CStr) (tail : List Cell) (v w : Cell) :
    (live.map some ++ w :: tail).set live.length v = live.map some ++ v :: tail := by
  simp [List.set]

theorem set_after_live_length (live : List CStr) (a : Cell) (tail : List Cell) (v w : Cell) :
    (live.map some ++ a :: w :: tail).set (live.length + 1) v
      = live.map some ++ a :: v :: tail := by
  simp [List.set]

theorem push_some_models (alloc : Alloc) (cnt : Nat) (arr : dynamic_array)
    (live : List CStr) (e : CStr) (hm : Models arr live) (ha : ∀ n, alloc n = true) :
    (push alloc cnt arr (some e)).1 = true ∧
    Models (push alloc cnt arr (some e)).2.1 (live ++ [e]) := by
  obtain ⟨rest, he, hs, hl⟩ := hm
  obtain ⟨entries, len, size⟩ := arr
  dsimp only at he hs hl
  subst he hs hl
  cases rest with
  | nil =>
    simp only [push, pushAfterDup, ha, if_true, writeEntry, reallocBuf]
    rw [if_pos (by simp)]
    refine ⟨rfl, List.replicate 127 none, ?_, ?_, ?_⟩
    · have h1 : (live.map some ++ none :: ([] : List Cell)) ++ List.replicate 128 none
          = live.map some ++ none :: List.replicate 128 none := by simp
      have h2 : List.replicate 128 (none : Cell) = none :: List.replicate 127 none := rfl
      simp only [h1, h2, set_at_live_length, set_after_live_length]
      simp
    · simp
    · simp

  | cons c r =>
    simp only [push, pushAfterDup, ha, if_true, writeEntry]
    rw [if_neg (by simp)]
    refine ⟨rfl, r, ?_, by simp; omega, by simp⟩
    simp only [set_at_live_length, set_after_live_length]
    simp

theorem push_none_models (alloc : Alloc) (cnt : Nat) (arr : dynamic_array)
    (live : List CStr) (hm : Models arr live) :
    (push alloc cnt arr none).1 = true ∧
    Models (push alloc cnt arr none).2.1 live := by
  obtain ⟨rest, he, hs, hl⟩ := hm
  obtain ⟨entries, len, size⟩ := arr
  dsimp only at he hs hl
  subst he hs hl
  simp only [push, pushAfterDup, writeEntry]
  rw [if_neg (by simp; omega)]
  exact ⟨rfl, rest, by simp [set_at_live_length], by simp, by simp⟩

theorem push_init_some_models (alloc : Alloc) (cnt : Nat) (e : CStr)
    (ha : ∀ n, alloc n = true) :
    (push alloc cnt dynamic_array.init (some e)).1 = true ∧
    Models (push alloc cnt dynamic_array.init (some e)).2.1 [e] := by
  simp only [push, pushAfterDup, ha, if_true, dynamic_array.init, writeEntry, reallocBuf]
  rw [if_pos (by simp)]
  refine ⟨rfl, List.replicate 126 none, ?_, by simp, by simp⟩
  have h2 : List.replicate 128 (none : Cell) = none :: none :: List.replicate 126 none := rfl
  simp [h2, List.set]

theorem push_init_none_models (alloc : Alloc) (cnt : Nat)
    (ha : ∀ n, alloc n = true) :
    (push alloc cnt dynamic_array.init none).1 = true ∧
    Models (push alloc cnt dynamic_array.init none).2.1 [] := by
  simp only [push, pushAfterDup, ha, if_true, dynamic_array.init, writeEntry, reallocBuf]
  rw [if_pos (by simp)]
  refine ⟨rfl, List.replicate 127 none, ?_, by simp, by simp⟩
  have h2 : List.replicate 128 (none : Cell) = none :: List.replicate 127 none := rfl
  simp [h2, List.set]

theorem pushMany_models (alloc : Alloc) (ha : ∀ n, alloc n = true)
    (xs : List CStr) :
    ∀ (cnt : Nat) (arr : dynamic_array) (live : List CStr), Models arr live →
      Models (pushMany alloc cnt arr (xs.map some)).1 (live ++ xs) := by
  induction xs with
  | nil => intro cnt arr live hm; simpa [pushMany] using hm
  | cons x xs ih =>
    intro cnt arr live hm
    have hstep := (push_some_models alloc cnt arr live x hm ha).2
    have := ih (push alloc cnt arr (some x)).2.2 (push alloc cnt arr (some x)).2.1
      (live ++ [x]) hstep
    simpa [pushMany] using this

/-- The class a non-discarded line is routed to: one of the five
collections of LLVMFuzzerTestOneInput. -/
inductive Category
  | plugin_arg
  | user_info
  | setting
  | argv_entry
  | env_add
deriving DecidableEq, Repr

/-- The plugin-argument key prefixes, in the order the code tests them. -/
def plugin_arg_keys : List (List Char) :=
  [("error_recovery=".toList), ("sudoers_file=".toList), ("sudoers_mode=".toList),
   ("sudoers_gid=".toList), ("sudoers_uid=".toList), ("ldap_conf=".toList),
   ("ldap_secret=".toList)]

/-- The user-info key prefixes, in the order the code tests them. -/
def user_info_keys : List (List Char) :=
  [("user=".toList), ("uid=".toList), ("gid=".toList), ("groups=".toList),
   ("cwd=".toList), ("tty=".toList), ("host=".toList), ("lines=".toList),
   ("cols=".toList), ("sid=".toList), ("umask=".toList), ("rlimit_".toList)]

/-- Routing of one non-discarded line by the strncmp prefix chain of
LLVMFuzzerTestOneInput: plugin-argument keys first, then user-info keys,
then argv=, then env=, anything else a setting.  strncmp(line, key,
strlen(key)) == 0 is exactly a byte-wise prefix match. -/
def classify (l : CStr) : Category :=
  if plugin_arg_keys.any (fun p => p.isPrefixOf l) then Category.plugin_arg
  else if user_info_keys.any (fun p => p.isPrefixOf l) then Category.user_info
  else if (("argv=".toList).isPrefixOf l) then Category.argv_entry
  else if (("env=".toList).isPrefixOf l) then Category.env_add
  else Category.setting

/-- One decoded line of the classification loop: lines whose first byte
is '#' or NUL (empty line) are skipped before classification, all others
are classified. -/
def processLine (l : CStr) : Option Category :=
  match l with
  | [] => none
  | c :: rest => if c = '#' then none else some (classify (c :: rest))

/-- The five collections being built, the running allocation counter, and
an observation flag recording whether any push reported failure (the C
code discards the push return values; the flag only observes them). -/
structure BuildState where
  plugin_args : dynamic_array
  settings : dynamic_array
  user_info : dynamic_array
  argv : dynamic_array
  env_add : dynamic_array
  cnt : Nat
  pushFailed : Bool
deriving DecidableEq, Repr

/-- All five collections zero-initialized, counter zero, as at the top of
LLVMFuzzerTestOneInput. -/
def initState : BuildState :=
  ⟨dynamic_array.init, dynamic_array.init, dynamic_array.init,
   dynamic_array.init, dynamic_array.init, 0, false⟩

/-- One classified push of the loop body: the line goes, unmodified, into
the array selected by its category; the push return value is ignored by
the code (recorded only in the observation flag). -/
def doPush (alloc : Alloc) (st : BuildState) (cat : Category) (l : CStr) : BuildState :=
  match cat with
  | Category.plugin_arg =>
    let r := push alloc st.cnt st.plugin_args (some l)
    { st with plugin_args := r.2.1, cnt := r.2.2, pushFailed := st.pushFailed || !r.1 }
  | Category.user_info =>
    let r := push alloc st.cnt st.user_info (some l)
    { st with user_info := r.2.1, cnt := r.2.2, pushFailed := st.pushFailed || !r.1 }
  | Category.setting =>
    let r := push alloc st.cnt st.settings (some l)
    { st with settings := r.2.1, cnt := r.2.2, pushFailed := st.pushFailed || !r.1 }
  | Category.argv_entry =>
    let r := push alloc st.cnt st.argv (some l)
    { st with argv := r.2.1, cnt := r.2.2, pushFailed := st.pushFailed || !r.1 }
  | Category.env_add =>
    let r := push alloc st.cnt st.env_add (some l)
    { st with env_add := r.2.1, cnt := r.2.2, pushFailed := st.pushFailed || !r.1 }

/-- The getdelim classification loop over the decoded lines. -/
def classifyLines (alloc : Alloc) (st : BuildState) : List CStr → BuildState
  | [] => st
  | l :: rest =>
    match processLine l with
    | none => classifyLines alloc st rest
    | some cat => classifyLines alloc (doPush alloc st cat l) rest

/-- The two pushes before the loop: push(&user_info, NULL) and
push(&settings, NULL); the code ignores both return values. -/
def initPushes (alloc : Alloc) : BuildState :=
  let r1 := push alloc initState.cnt initState.user_info none
  let r2 := push alloc r1.2.2 initState.settings none
  { initState with user_info := r1.2.1, settings := r2.2.1, cnt := r2.2.2,
                   pushFailed := !r1.1 || !r2.1 }

/-- Building the five collections of one iteration: the two initial NULL
pushes, then the classification loop. -/
def buildCollections (alloc : Alloc) (lines : List CStr) : BuildState :=
  classifyLines alloc (initPushes alloc) lines

/-- One plugin call made by the lifecycle driver, with the harness-owned
data passed to it.  openCall records the entries pointers of the
settings, user_info and plugin_args collections; checkPolicyCall records
argc and the entries pointers of argv and env_add; closeCall records
exit status and signal. -/
inductive Event
  | openCall (settings : Option (List Cell)) (user_info : Option (List Cell))
      (plugin_args : Option (List Cell))
  | checkPolicyCall (argc : Nat) (argv : Option (List Cell))
      (env_add : Option (List Cell))
  | closeCall (exit_status : Int) (signal : Int)
deriving DecidableEq, Repr

/-- Trace of the plugin calls made by LLVMFuzzerTestOneInput on one
iteration.  fpOk is whether open_data succeeded (false: return 0 at once,
no collections, no plugin call); lines is the decoded line sequence;
openRes is the value returned by the external sudoers_policy.open;
hasClose is whether sudoers_policy.close is non-NULL.  After open: 0
(failure) falls through to the close call; 1 (success) synthesizes
argv = "/usr/bin/id" when no argv= line was pushed (the push return value
again ignored), calls check_policy, falls through to the close call; any
other value jumps to the cleanup label, skipping close. -/
def LLVMFuzzerTestOneInput (fpOk : Bool) (alloc : Alloc) (lines : List CStr)
    (openRes : Int) (hasClose : Bool) : List Event :=
  if !fpOk then [] else
  let st := buildCollections alloc lines
  let openEv := Event.openCall st.settings.entries st.user_info.entries
      st.plugin_args.entries
  let closeEvs := if hasClose then [Event.closeCall 0 0] else []
  if openRes = 0 then
    openEv :: closeEvs
  else if openRes = 1 then
    let argvArr :=
      if st.argv.len = 0 then (push alloc st.cnt st.argv (some ("/usr/bin/id".toList))).2.1
      else st.argv
    openEv :: Event.checkPolicyCall argvArr.len argvArr.entries st.env_add.entries :: closeEvs
  else
    [openEv]

/-- Modelled from the spec: the message-type constant for an echo-off
interactive prompt, from the plugin conversation ABI header, which is not
among the sources under src. -/
def SUDO_CONV_PROMPT_ECHO_OFF : Int := 1

/-- Modelled from the spec: the message-type constant for an echo-on
interactive prompt. -/
def SUDO_CONV_PROMPT_ECHO_ON : Int := 2

/-- Modelled from the spec: the message-type constant for an error
message, routed to standard error. -/
def SUDO_CONV_ERROR_MSG : Int := 3

/-- Modelled from the spec: the message-type constant for an
informational message, routed to standard output. -/
def SUDO_CONV_INFO_MSG : Int := 4

/-- Modelled from the spec: the message-type constant for a masked
interactive prompt. -/
def SUDO_CONV_PROMPT_MASK : Int := 5

/-- One conversation message record: type and text (none models a NULL
msg pointer). -/
structure sudo_conv_message where
  msg_type : Int
  msg : Option CStr
deriving DecidableEq, Repr

/-- Embedding of fuzz_conversation.  Result is (return value, bytes
written to standard output, bytes written to standard error).  The switch
is on msg_type & 0xff, which for the C int is the value modulo 256; the
three prompt types and any unrecognized type return -1 at once; error and
informational messages with non-NULL, non-empty text are written followed
by a newline to stderr and stdout respectively.  fwrite and fputc are
modelled as succeeding. -/
def fuzz_conversation : List sudo_conv_message → Int × List Char × List Char
  | [] => (0, [], [])
  | m :: rest =>
    let t := m.msg_type % 256
    if t = SUDO_CONV_PROMPT_ECHO_ON ∨ t = SUDO_CONV_PROMPT_MASK ∨
        t = SUDO_CONV_PROMPT_ECHO_OFF then
      (-1, [], [])
    else if t = SUDO_CONV_ERROR_MSG ∨ t = SUDO_CONV_INFO_MSG then
      let written : List Char :=
        match m.msg with
        | none => []
        | some s => if s.length = 0 then [] else s ++ ['\n']
      let r := fuzz_conversation rest
      if t = SUDO_CONV_ERROR_MSG then (r.1, r.2.1, written ++ r.2.2)
      else (r.1, written ++ r.2.1, r.2.2)
    else
      (-1, [], [])

/-- Embedding of fuzz_printf.  The varargs formatting is modelled by
passing the already formatted text; vfprintf is modelled as succeeding
and returning the number of characters written.  Result is (return value,
bytes written to standard output, bytes written to standard error);
unrecognized types return -1 (with errno EINVAL, not modelled). -/
def fuzz_printf (msg_type : Int) (formatted : List Char) : Int × List Char × List Char :=
  let t := msg_type % 256
  if t = SUDO_CONV_ERROR_MSG then ((formatted.length : Int), [], formatted)
  else if t = SUDO_CONV_INFO_MSG then ((formatted.length : Int), formatted, [])
  else (-1, [], [])

/-- C9: releasing a dynamic array whose entries pointer is NULL (never
successfully pushed to) frees no string and no buffer and only resets the
record: length, capacity and the entries pointer all become zero. -/
theorem C9_free_null_is_noop (arr : dynamic_array) (h : arr.entries = none) :
    free_dynamic_array arr = (dynamic_array.init, [], false) := by
  simp [free_dynamic_array, h, dynamic_array.init]

theorem C9_witness : free_dynamic_array ⟨none, 3, 5⟩ = (dynamic_array.init, [], false) :=
  C9_free_null_is_noop ⟨none, 3, 5⟩ rfl

/-- C1, counterexample to the claim as stated: with an allocation oracle
that fails every allocation and the single line a, pushes fail while
building the collections (pushFailed is true), yet the iteration is not
aborted: the plugin open operation is still invoked, here with all three
passed collections NULL. -/
theorem C1_counterexample :
    (buildCollections (fun _ => false) [['a']]).pushFailed = true ∧
    LLVMFuzzerTestOneInput true (fun _ => false) [['a']] 0 false =
      [Event.openCall none none none] := by decide

/-- C1 as amended: an allocation failure during a push while building the
collections does not abort the iteration; the push return value is
discarded and the plugin open operation is invoked regardless. -/
theorem C1_push_failure_does_not_abort (alloc : Alloc) (lines : List CStr)
    (openRes : Int) (hasClose : Bool)
    (_hfail : (buildCollections alloc lines).pushFailed = true) :
    ∃ s u p, Event.openCall s u p ∈ LLVMFuzzerTestOneInput true alloc lines openRes hasClose := by
  refine ⟨(buildCollections alloc lines).settings.entries,
          (buildCollections alloc lines).user_info.entries,
          (buildCollections alloc lines).plugin_args.entries, ?_⟩
  simp only [LLVMFuzzerTestOneInput, Bool.not_true, Bool.false_eq_true, if_false]
  split
  · exact List.mem_cons_self _ _
  · split
    · exact List.mem_cons_self _ _
    · exact List.mem_cons_self _ _

theorem C1_witness :
    (buildCollections (fun _ => false) [['b']]).pushFailed = true ∧
    (∃ s u p, Event.openCall s u p ∈
        LLVMFuzzerTestOneInput true (fun _ => false) [['b']] 2 true) :=
  ⟨by decide, C1_push_failure_does_not_abort (fun _ => false) [['b']] 2 true (by decide)⟩

/-- C2, counterexample to the claim as stated: when open returns 0 the
driver does not skip close; with a close entry point present, close(0, 0)
is invoked in the same iteration. -/
theorem C2_counterexample :
    Event.closeCall 0 0 ∈ LLVMFuzzerTestOneInput true (fun _ => true) [] 0 true := by decide

/-- C2 as amended: when the plugin open operation returns 0 (failure),
the driver skips check-policy and falls through to the close step: the
close operation is invoked with exit status 0 and no signal exactly when
the plugin exposes one, and then teardown runs.  The trace is the open
call followed by the optional close call, with no check-policy call. -/
theorem C2_open_failure_still_closes (alloc : Alloc) (lines : List CStr) (hasClose : Bool) :
    LLVMFuzzerTestOneInput true alloc lines 0 hasClose =
      Event.openCall (buildCollections alloc lines).settings.entries
        (buildCollections alloc lines).user_info.entries
        (buildCollections alloc lines).plugin_args.entries ::
      (if hasClose then [Event.closeCall 0 0] else []) := by
  simp [LLVMFuzzerTestOneInput]

/-- C3: when open returns neither 0 nor 1 (the fatal/usage sentinel), no
close call appears in the trace of the iteration; in the branches for 0
and 1, when the plugin exposes a close operation it is invoked with exit
status 0 and no signal. -/
theorem C3_close_discipline (fpOk : Bool) (alloc : Alloc) (lines : List CStr)
    (openRes : Int) (hasClose : Bool) :
    (openRes ≠ 0 → openRes ≠ 1 → ∀ e s,
        Event.closeCall e s ∉ LLVMFuzzerTestOneInput fpOk alloc lines openRes hasClose) ∧
    ((openRes = 0 ∨ openRes = 1) → hasClose = true →
        Event.closeCall 0 0 ∈ LLVMFuzzerTestOneInput true alloc lines openRes hasClose) := by
  constructor
  · intro h0 h1 e s
    cases fpOk with
    | false => simp [LLVMFuzzerTestOneInput]
    | true => simp [LLVMFuzzerTestOneInput, h0, h1]
  · intro hres hclose
    cases hres with
    | inl h => simp [LLVMFuzzerTestOneInput, h, hclose]
    | inr h => simp [LLVMFuzzerTestOneInput, h, hclose]

theorem C3_witness :
    (Event.closeCall 0 0 ∉ LLVMFuzzerTestOneInput true (fun _ => true) [] 5 true) ∧
    Event.closeCall 0 0 ∈ LLVMFuzzerTestOneInput true (fun _ => true) [] 0 true :=
  ⟨(C3_close_discipline true (fun _ => true) [] 5 true).1 (by decide) (by decide) 0 0,
   (C3_close_discipline true (fun _ => true) [] 0 true).2 (Or.inl rfl) rfl⟩

/-- C10: both harness callbacks depend on the message type only through
its low 8 bits (the C switch is on msg_type & 0xff): two printf
invocations whose types agree modulo 256 and two conversation invocations
whose message lists agree pointwise up to type congruence modulo 256
produce identical results, including the streams written. -/
theorem C10_low_byte_only :
    (∀ (t1 t2 : Int) (s : List Char), t1 % 256 = t2 % 256 →
        fuzz_printf t1 s = fuzz_printf t2 s) ∧
    (∀ ms1 ms2 : List sudo_conv_message,
        List.Forall₂ (fun a b => a.msg_type % 256 = b.msg_type % 256 ∧ a.msg = b.msg) ms1 ms2 →
        fuzz_conversation ms1 = fuzz_conversation ms2) := by
  constructor
  · intro t1 t2 s h
    simp only [fuzz_printf, h]
  · intro ms1 ms2 h
    induction h with
    | nil => rfl
    | cons hab htl ih =>
      simp only [fuzz_conversation, hab.1, hab.2, ih]

theorem C10_witness :
    fuzz_printf 260 ['x'] = fuzz_printf 4 ['x'] ∧
    fuzz_conversation [⟨259, some ['y']⟩] = fuzz_conversation [⟨3, some ['y']⟩] :=
  ⟨C10_low_byte_only.1 260 4 ['x'] (by decide),
   C10_low_byte_only.2 [⟨259, some ['y']⟩] [⟨3, some ['y']⟩]
     (List.Forall₂.cons ⟨by decide, rfl⟩ List.Forall₂.nil)⟩

/-- C5: classification of a decoded line is a fixed, case-sensitive
prefix match routing into exactly one collection: a line beginning
user= or uid= goes to user_info, a line beginning argv= goes to argv,
a non-discarded line matching none of the recognized prefixes (such as
foo=bar) goes to settings, and an empty line or a line beginning with
the hash character is discarded before classification. -/
theorem C5_classification :
    (∀ l : CStr, ("user=".toList).isPrefixOf l = true ∨ ("uid=".toList).isPrefixOf l = true →
        processLine l = some Category.user_info) ∧
    (∀ l : CStr, ("argv=".toList).isPrefixOf l = true →
        processLine l = some Category.argv_entry) ∧
    (∀ (c : Char) (t : List Char), ¬ c = '#' →
        plugin_arg_keys.any (fun p => p.isPrefixOf (c :: t)) = false →
        user_info_keys.any (fun p => p.isPrefixOf (c :: t)) = false →
        ("argv=".toList).isPrefixOf (c :: t) = false →
        ("env=".toList).isPrefixOf (c :: t) = false →
        processLine (c :: t) = some Category.setting) ∧
    processLine ("foo=bar".toList) = some Category.setting ∧
    processLine [] = none ∧
    (∀ t : List Char, processLine ('#' :: t) = none) := by
  refine ⟨?_, ?_, ?_, by decide, rfl, ?_⟩
  · intro l h
    cases h with
    | inl h =>
      obtain ⟨t, ht⟩ := List.isPrefixOf_iff_prefix.mp h
      subst ht
      simp [processLine, classify, plugin_arg_keys, user_info_keys, List.isPrefixOf]
    | inr h =>
      obtain ⟨t, ht⟩ := List.isPrefixOf_iff_prefix.mp h
      subst ht
      simp [processLine, classify, plugin_arg_keys, user_info_keys, List.isPrefixOf]
  · intro l h
    obtain ⟨t, ht⟩ := List.isPrefixOf_iff_prefix.mp h
    subst ht
    simp [processLine, classify, plugin_arg_keys, user_info_keys, List.isPrefixOf]
  · intro c t hc h1 h2 h3 h4
    simp at h3 h4
    simp [processLine, classify, hc, h1, h2, h3, h4]
  · intro t
    simp [processLine]

theorem C5_witness :
    processLine ("user=alice".toList) = some Category.user_info ∧
    processLine ("uid=1000".toList) = some Category.user_info ∧
    processLine ("argv=/bin/ls".toList) = some Category.argv_entry ∧
    processLine ("foo=bar".toList) = some Category.setting ∧
    processLine ("# comment".toList) = none :=
  ⟨C5_classification.1 ("user=alice".toList) (Or.inl (by decide)),
   C5_classification.1 ("uid=1000".toList) (Or.inr (by decide)),
   C5_classification.2.1 ("argv=/bin/ls".toList) (by decide),
   C5_classification.2.2.2.1,
   C5_classification.2.2.2.2.2 (" comment".toList)⟩

/-- C8, counterexample to the claim as stated: an informational message
whose text is empty is not written followed by a newline; the callback
writes nothing at all to standard output and returns success. -/
theorem C8_counterexample :
    (fuzz_conversation [⟨SUDO_CONV_INFO_MSG, some []⟩]).2.1 ≠ [] ++ ['\n'] ∧
    fuzz_conversation [⟨SUDO_CONV_INFO_MSG, some []⟩] = (0, [], []) := by decide

/-- C8 as amended: a message whose type requests interactive input makes
the callback return failure; a leading informational or error message
with non-NULL, non-empty text is written followed by a newline to
standard output or standard error respectively, processing continuing
with the remaining messages; a NULL or empty informational or error
message produces no output. -/
theorem C8_conversation_behaviour :
    (∀ ms : List sudo_conv_message,
        (∃ m ∈ ms, m.msg_type % 256 = SUDO_CONV_PROMPT_ECHO_ON ∨
            m.msg_type % 256 = SUDO_CONV_PROMPT_MASK ∨
            m.msg_type % 256 = SUDO_CONV_PROMPT_ECHO_OFF) →
        (fuzz_conversation ms).1 = -1) ∧
    (∀ (t : Int) (s : CStr) (rest : List sudo_conv_message),
        t % 256 = SUDO_CONV_INFO_MSG → ¬ s = [] →
        fuzz_conversation (⟨t, some s⟩ :: rest) =
          ((fuzz_conversation rest).1, s ++ '\n' :: (fuzz_conversation rest).2.1,
           (fuzz_conversation rest).2.2)) ∧
    (∀ (t : Int) (s : CStr) (rest : List sudo_conv_message),
        t % 256 = SUDO_CONV_ERROR_MSG → ¬ s = [] →
        fuzz_conversation (⟨t, some s⟩ :: rest) =
          ((fuzz_conversation rest).1, (fuzz_conversation rest).2.1,
           s ++ '\n' :: (fuzz_conversation rest).2.2)) ∧
    (∀ (t : Int) (m : Option CStr) (rest : List sudo_conv_message),
        (t % 256 = SUDO_CONV_ERROR_MSG ∨ t % 256 = SUDO_CONV_INFO_MSG) →
        (m = none ∨ m = some []) →
        fuzz_conversation (⟨t, m⟩ :: rest) = fuzz_conversation rest) := by
  refine ⟨?_, ?_, ?_, ?_⟩
  · intro ms h
    induction ms with
    | nil => simp at h
    | cons m rest ih =>
      obtain ⟨x, hx, hp⟩ := h
      rw [List.mem_cons] at hx
      cases hx with
      | inl hx =>
        subst hx
        simp only [fuzz_conversation]
        rw [if_pos hp]
      | inr hx =>
        simp only [fuzz_conversation]
        by_cases hprompt : (m.msg_type % 256 = SUDO_CONV_PROMPT_ECHO_ON ∨
            m.msg_type % 256 = SUDO_CONV_PROMPT_MASK ∨
            m.msg_type % 256 = SUDO_CONV_PROMPT_ECHO_OFF)
        · rw [if_pos hprompt]
        · rw [if_neg hprompt]
          by_cases hwri : (m.msg_type % 256 = SUDO_CONV_ERROR_MSG ∨
              m.msg_type % 256 = SUDO_CONV_INFO_MSG)
          · rw [if_pos hwri]
            have hr := ih ⟨x, hx, hp⟩
            split <;> simpa using hr
          · rw [if_neg hwri]
  · intro t s rest hinfo hne
    simp +decide [fuzz_conversation, hinfo, hne, SUDO_CONV_INFO_MSG,
      SUDO_CONV_ERROR_MSG, SUDO_CONV_PROMPT_ECHO_ON, SUDO_CONV_PROMPT_MASK,
      SUDO_CONV_PROMPT_ECHO_OFF]
  · intro t s rest herr hne
    simp +decide [fuzz_conversation, herr, hne, SUDO_CONV_INFO_MSG,
      SUDO_CONV_ERROR_MSG, SUDO_CONV_PROMPT_ECHO_ON, SUDO_CONV_PROMPT_MASK,
      SUDO_CONV_PROMPT_ECHO_OFF]
  · intro t m rest htype hm
    cases htype with
    | inl h =>
      cases hm with
      | inl hm =>
        subst hm
        simp +decide [fuzz_conversation, h, SUDO_CONV_INFO_MSG, SUDO_CONV_ERROR_MSG,
          SUDO_CONV_PROMPT_ECHO_ON, SUDO_CONV_PROMPT_MASK, SUDO_CONV_PROMPT_ECHO_OFF]
      | inr hm =>
        subst hm
        simp +decide [fuzz_conversation, h, SUDO_CONV_INFO_MSG, SUDO_CONV_ERROR_MSG,
          SUDO_CONV_PROMPT_ECHO_ON, SUDO_CONV_PROMPT_MASK, SUDO_CONV_PROMPT_ECHO_OFF]
    | inr h =>
      cases hm with
      | inl hm =>
        subst hm
        simp +decide [fuzz_conversation, h, SUDO_CONV_INFO_MSG, SUDO_CONV_ERROR_MSG,
          SUDO_CONV_PROMPT_ECHO_ON, SUDO_CONV_PROMPT_MASK, SUDO_CONV_PROMPT_ECHO_OFF]
      | inr hm =>
        subst hm
        simp +decide [fuzz_conversation, h, SUDO_CONV_INFO_MSG, SUDO_CONV_ERROR_MSG,
          SUDO_CONV_PROMPT_ECHO_ON, SUDO_CONV_PROMPT_MASK, SUDO_CONV_PROMPT_ECHO_OFF]

theorem C8_witness :
    (fuzz_conversation [⟨SUDO_CONV_PROMPT_ECHO_ON, none⟩]).1 = -1 ∧
    fuzz_conversation [⟨SUDO_CONV_INFO_MSG, some ['h', 'i']⟩] =
      ((fuzz_conversation []).1, ['h', 'i'] ++ '\n' :: (fuzz_conversation []).2.1,
       (fuzz_conversation []).2.2) ∧
    fuzz_conversation [⟨SUDO_CONV_ERROR_MSG, some ['n', 'o']⟩] =
      ((fuzz_conversation []).1, (fuzz_conversation []).2.1,
       ['n', 'o'] ++ '\n' :: (fuzz_conversation []).2.2) ∧
    fuzz_conversation [⟨SUDO_CONV_INFO_MSG, none⟩] = fuzz_conversation [] :=
  ⟨C8_conversation_behaviour.1 [⟨SUDO_CONV_PROMPT_ECHO_ON, none⟩]
     ⟨⟨SUDO_CONV_PROMPT_ECHO_ON, none⟩, by decide, by decide⟩,
   C8_conversation_behaviour.2.1 SUDO_CONV_INFO_MSG ['h', 'i'] [] (by decide) (by decide),
   C8_conversation_behaviour.2.2.1 SUDO_CONV_ERROR_MSG ['n', 'o'] [] (by decide) (by decide),
   C8_conversation_behaviour.2.2.2 SUDO_CONV_INFO_MSG none [] (Or.inr (by decide)) (Or.inl rfl)⟩

/-- C4: from a fresh array, any non-empty sequence of successful pushes
of non-null entries yields exactly the pushed strings as live slots
followed by the NULL terminator one past the last element (Models); on
any array satisfying the invariant, further pushes of non-null entries
extend the live slots and re-establish it, and a push of a null entry
re-establishes it unchanged.  Under the all-successful allocation oracle
every push succeeds. -/
theorem C4_sentinel_termination (alloc : Alloc) (ha : ∀ n, alloc n = true) :
    (∀ (x : CStr) (xs : List CStr) (cnt : Nat),
        Models (pushMany alloc cnt dynamic_array.init ((x :: xs).map some)).1 (x :: xs)) ∧
    (∀ (arr : dynamic_array) (live xs : List CStr) (cnt : Nat),
        Models arr live →
        Models (pushMany alloc cnt arr (xs.map some)).1 (live ++ xs)) ∧
    (∀ (arr : dynamic_array) (live : List CStr) (e : CStr) (cnt : Nat),
        Models arr live →
        (push alloc cnt arr (some e)).1 = true ∧
        Models (push alloc cnt arr (some e)).2.1 (live ++ [e])) ∧
    (∀ (arr : dynamic_array) (live : List CStr) (cnt : Nat),
        Models arr live →
        (push alloc cnt arr none).1 = true ∧
        Models (push alloc cnt arr none).2.1 live) := by
  refine ⟨?_, ?_, ?_, ?_⟩
  · intro x xs cnt
    have h1 := (push_init_some_models alloc cnt x ha).2
    have h2 := pushMany_models alloc ha xs
      (push alloc cnt dynamic_array.init (some x)).2.2
      (push alloc cnt dynamic_array.init (some x)).2.1 [x] h1
    simpa [pushMany] using h2
  · intro arr live xs cnt hm
    exact pushMany_models alloc ha xs cnt arr live hm
  · intro arr live e cnt hm
    exact push_some_models alloc cnt arr live e hm ha
  · intro arr live cnt hm
    exact push_none_models alloc cnt arr live hm

theorem C4_witness :
    Models (pushMany (fun _ => true) 0 dynamic_array.init ([['a']].map some)).1 [['a']] :=
  (C4_sentinel_termination (fun _ => true) (fun _ => rfl)).1 ['a'] [] 0

theorem initPushes_models (alloc : Alloc) (ha : ∀ n, alloc n = true) :
    Models (initPushes alloc).user_info [] ∧ Models (initPushes alloc).settings [] := by
  constructor
  · simp only [initPushes, initState]
    exact (push_init_none_models alloc 0 ha).2
  · simp only [initPushes, initState]
    exact (push_init_none_models alloc _ ha).2

theorem classifyLines_models (alloc : Alloc) (ha : ∀ n, alloc n = true)
    (lines : List CStr) :
    ∀ (st : BuildState) (u s : List CStr),
      Models st.user_info u → Models st.settings s →
      ∃ u2 s2, Models (classifyLines alloc st lines).user_info u2 ∧
               Models (classifyLines alloc st lines).settings s2 := by
  induction lines with
  | nil =>
    intro st u s hu hs
    exact ⟨u, s, hu, hs⟩
  | cons l rest ih =>
    intro st u s hu hs
    simp only [classifyLines]
    cases hpl : processLine l with
    | none => exact ih st u s hu hs
    | some cat =>
      cases cat with
      | plugin_arg => exact ih _ u s (by simp [doPush, hu]) (by simp [doPush, hs])
      | user_info =>
        refine ih _ (u ++ [l]) s ?_ (by simp [doPush, hs])
        simp only [doPush]
        exact (push_some_models alloc st.cnt st.user_info u l hu ha).2
      | setting =>
        refine ih _ u (s ++ [l]) (by simp [doPush, hu]) ?_
        simp only [doPush]
        exact (push_some_models alloc st.cnt st.settings s l hs ha).2
      | argv_entry => exact ih _ u s (by simp [doPush, hu]) (by simp [doPush, hs])
      | env_add => exact ih _ u s (by simp [doPush, hu]) (by simp [doPush, hs])

/-- C7: for every input, after building the collections (under successful
allocation) the user_info and settings entries pointers are non-NULL with
at least one allocated slot, even when no matching line was classified,
because a single NULL logical entry is pushed into each before the
classification loop begins. -/
theorem C7_presence (alloc : Alloc) (lines : List CStr) (ha : ∀ n, alloc n = true) :
    ∃ bufU bufS,
      (buildCollections alloc lines).user_info.entries = some bufU ∧ 1 ≤ bufU.length ∧
      (buildCollections alloc lines).settings.entries = some bufS ∧ 1 ≤ bufS.length := by
  obtain ⟨hu, hs⟩ := initPushes_models alloc ha
  obtain ⟨u2, s2, hu2, hs2⟩ :=
    classifyLines_models alloc ha lines (initPushes alloc) [] [] hu hs
  obtain ⟨ru, heu, _, _⟩ := hu2
  obtain ⟨rs, hes, _, _⟩ := hs2
  refine ⟨_, _, heu, by simp; omega, hes, by simp; omega⟩

theorem C7_witness :
    ∃ bufU bufS,
      (buildCollections (fun _ => true) []).user_info.entries = some bufU ∧ 1 ≤ bufU.length ∧
      (buildCollections (fun _ => true) []).settings.entries = some bufS ∧ 1 ≤ bufS.length :=
  C7_presence (fun _ => true) [] (fun _ => rfl)

theorem classifyLines_argv_unchanged (alloc : Alloc) (lines : List CStr) :
    ∀ st : BuildState, (∀ l ∈ lines, processLine l ≠ some Category.argv_entry) →
      (classifyLines alloc st lines).argv = st.argv := by
  induction lines with
  | nil => intro st _; rfl
  | cons l rest ih =>
    intro st h
    have htl : ∀ x ∈ rest, processLine x ≠ some Category.argv_entry :=
      fun x hx => h x (List.mem_cons_of_mem _ hx)
    simp only [classifyLines]
    cases hpl : processLine l with
    | none => exact ih st htl
    | some cat =>
      cases cat with
      | argv_entry => exact absurd hpl (h l (List.mem_cons_self _ _))
      | plugin_arg => rw [ih _ htl]; simp [doPush]
      | user_info => rw [ih _ htl]; simp [doPush]
      | setting => rw [ih _ htl]; simp [doPush]
      | env_add => rw [ih _ htl]; simp [doPush]

/-- C6: when no line classifies as an argv entry and the plugin open
operation returns success (1), check-policy is invoked with argc 1 and an
argv collection holding exactly the synthesized command /usr/bin/id
followed by the NULL terminator. -/
theorem C6_default_command (alloc : Alloc) (lines : List CStr) (hasClose : Bool)
    (ha : ∀ n, alloc n = true)
    (hargv : ∀ l ∈ lines, processLine l ≠ some Category.argv_entry) :
    ∃ s u p env rest,
      LLVMFuzzerTestOneInput true alloc lines 1 hasClose =
        Event.openCall s u p ::
        Event.checkPolicyCall 1 (some (some ("/usr/bin/id".toList) :: none :: rest)) env ::
        (if hasClose then [Event.closeCall 0 0] else []) := by
  have hinit : (buildCollections alloc lines).argv = dynamic_array.init := by
    unfold buildCollections
    rw [classifyLines_argv_unchanged alloc lines (initPushes alloc) hargv]
    rfl
  obtain ⟨rest, he, hs, hl⟩ :=
    (push_init_some_models alloc (buildCollections alloc lines).cnt
      ("/usr/bin/id".toList) ha).2
  refine ⟨(buildCollections alloc lines).settings.entries,
          (buildCollections alloc lines).user_info.entries,
          (buildCollections alloc lines).plugin_args.entries,
          (buildCollections alloc lines).env_add.entries, rest, ?_⟩
  simp only [LLVMFuzzerTestOneInput, hinit]
  simp [dynamic_array.init] at he hl
  simp [dynamic_array.init, he, hl]

theorem C6_witness :
    ∃ s u p env rest,
      LLVMFuzzerTestOneInput true (fun _ => true) [] 1 false =
        Event.openCall s u p ::
        Event.checkPolicyCall 1 (some (some ("/usr/bin/id".toList) :: none :: rest)) env ::
        (if false then [Event.closeCall 0 0] else []) :=
  C6_default_command (fun _ => true) [] false (fun _ => rfl) (by simp)
